import Mathlib

/-!
# kiosk: `pkg/util/convert` and the template-instance reconcile pass

A shallow embedding of `src/pkg/util/convert/convert.go`.

The package is a thin layer over three libraries: Go's `regexp` and
`encoding/json`, `github.com/ghodss/yaml`, and the `unstructured` / `runtime`
packages of `k8s.io/apimachinery`.  What those libraries do with *text* (the YAML
grammar, the JSON printer) is a parameter of the development, the record `Codec`;
what they do with *decoded documents* (which JSON documents fit a
`map[string]interface{}`, which fit an `unstructured.Unstructured`) is written out
as definitions.  Go errors are represented by their message, a nil error by
`none` or `Except.ok`.  Go strings are taken as sequences of characters; the
separator being ASCII, splitting by characters and by bytes agree on UTF-8 text.
-/

namespace Kiosk

/-! ## Documents -/

/-- A Go value as held by an `interface{}` inside a decoded document.  `unsupported`
stands for the values `encoding/json` refuses to encode (NaN, infinities, channels,
functions); no decoder ever produces it. -/
inductive Value where
  | null
  | bool (b : Bool)
  | number (lit : String)
  | str (s : String)
  | arr (items : List Value)
  | obj (fields : List (String × Value))
  | unsupported

/-- A Go `map[string]interface{}`; the empty list stands for both the nil and the
empty map (the code only ever asks for `len`). -/
abbrev Fields := List (String × Value)

/-- The name `encoding/json` uses for a JSON value in its type errors. -/
def Value.jsonKind : Value → String
  | .null => "null"
  | .bool _ => "bool"
  | .number _ => "number"
  | .str _ => "string"
  | .arr _ => "array"
  | .obj _ => "object"
  | .unsupported => "unsupported"

/-- The function `unstructured.NestedString` as used by the getters of
`Unstructured`: follow `path` through nested maps and return the string found
there, or the empty string when the path is absent or does not end in a string. -/
def getNestedString : Fields → List String → String
  | _, [] => ""
  | m, [k] =>
    match m.lookup k with
    | some (.str s) => s
    | _ => ""
  | m, k :: ks =>
    match m.lookup k with
    | some (.obj inner) => getNestedString inner ks
    | _ => ""

/-- The type `unstructured.Unstructured`: an object held as its field map. -/
structure Unstructured where
  Object : Fields

/-- The getter `GetAPIVersion`. -/
def Unstructured.GetAPIVersion (u : Unstructured) : String :=
  getNestedString u.Object ["apiVersion"]

/-- The getter `GetKind`. -/
def Unstructured.GetKind (u : Unstructured) : String :=
  getNestedString u.Object ["kind"]

/-- The getter `GetName`. -/
def Unstructured.GetName (u : Unstructured) : String :=
  getNestedString u.Object ["metadata", "name"]

/-- The getter `GetNamespace`. -/
def Unstructured.GetNamespace (u : Unstructured) : String :=
  getNestedString u.Object ["metadata", "namespace"]

/-- A typed `runtime.Object`, held as the Go type it is an instance of and the field
tree `encoding/json` sees through its struct tags (`apiVersion`, `kind`,
`metadata.name`, `metadata.namespace`, ...; fields tagged `omitempty` are absent
when empty). -/
structure RuntimeObject where
  goType : String
  fields : Fields

/-- The identity of an object: apiVersion, kind, name and namespace. -/
structure Identity where
  APIVersion : String
  Kind : String
  Name : String
  Namespace : String
deriving DecidableEq, Repr

/-- Identity of a field tree, read the way the `Unstructured` getters read it. -/
def Fields.identity (m : Fields) : Identity :=
  { APIVersion := getNestedString m ["apiVersion"]
    Kind := getNestedString m ["kind"]
    Name := getNestedString m ["metadata", "name"]
    Namespace := getNestedString m ["metadata", "namespace"] }

/-- Identity of a generic object. -/
def Unstructured.identity (u : Unstructured) : Identity :=
  { APIVersion := u.GetAPIVersion, Kind := u.GetKind
    Name := u.GetName, Namespace := u.GetNamespace }

/-- Identity of a typed object. -/
def RuntimeObject.identity (o : RuntimeObject) : Identity := o.fields.identity

/-! ## The libraries -/

/-- The text side of the libraries the package imports.

* `yamlToJSON`: the YAML-to-JSON conversion inside `yaml.Unmarshal` of
  `github.com/ghodss/yaml` for a target without type hints (an `interface{}`-shaped
  target or a `json.Unmarshaler`);
* `jsonText`: the JSON bytes of a converted document, which that conversion hands to
  `encoding/json` and of which a `json.Unmarshaler` is given its part;
* `jsonMarshal`: `encoding/json.Marshal` of a value;
* `yamlMarshal`: `yaml.Marshal` of a value;
* `yamlUnmarshalInto`: `yaml.Unmarshal` of a text into a typed object, returning the
  populated object. -/
structure Codec where
  yamlToJSON : String → Except String Value
  jsonText : Value → String
  jsonMarshal : Value → Except String String
  yamlMarshal : Value → Except String String
  yamlUnmarshalInto : String → RuntimeObject → Except String RuntimeObject

/-- The function `encoding/json.Unmarshal` into a fresh `map[string]interface{}`: JSON
null leaves the map nil, an object fills it, anything else is a type error. -/
def jsonUnmarshalMap : Value → Except String Fields
  | .null => .ok []
  | .obj m => .ok m
  | v => .error ("json: cannot unmarshal " ++ v.jsonKind ++
      " into Go value of type map[string]interface {}")

/-- Whether `schema.ParseGroupVersion` accepts the apiVersion: it does for the empty
string and for a string with at most one `/`, and fails on two or more. -/
def parsesGroupVersion (apiVersion : String) : Bool :=
  apiVersion.data.count '/' ≤ 1

/-- The kind in `Unstructured.GroupVersionKind()`: the `kind` field when the apiVersion
parses as a group and version, and empty (the zero `GroupVersionKind`) when it does
not. -/
def groupVersionKindKind (m : Fields) : String :=
  if parsesGroupVersion (getNestedString m ["apiVersion"]) then getNestedString m ["kind"]
  else ""

/-- The method `Unstructured.UnmarshalJSON`, that is `UnstructuredJSONScheme.Decode`: decode
the document into the field map, then refuse an object whose `GroupVersionKind()` has
an empty kind (`runtime.NewMissingKindErrWithString`, which echoes the JSON bytes it
was given, `text v`). -/
def Unstructured.UnmarshalJSON (text : Value → String) (v : Value) :
    Except String Unstructured :=
  match jsonUnmarshalMap v with
  | .error e => .error e
  | .ok m =>
    if (groupVersionKindKind m).length = 0 then
      .error ("Object 'Kind' is missing in '" ++ text v ++ "'")
    else .ok { Object := m }

/-- Decoding of the elements of a JSON array into `*unstructured.Unstructured` values, in
order, stopping at the first element that fails; a null element is a nil pointer,
`none`. -/
def jsonUnmarshalItems (text : Value → String) :
    List Value → Except String (List (Option Unstructured))
  | [] => .ok []
  | .null :: vs =>
    match jsonUnmarshalItems text vs with
    | .error e => .error e
    | .ok us => .ok (none :: us)
  | v :: vs =>
    match Unstructured.UnmarshalJSON text v with
    | .error e => .error e
    | .ok u =>
      match jsonUnmarshalItems text vs with
      | .error e => .error e
      | .ok us => .ok (some u :: us)

/-- The function `encoding/json.Unmarshal` into a `[]*unstructured.Unstructured`: JSON null
gives the nil slice, an array is decoded element by element, anything else is a type
error. -/
def jsonUnmarshalUnstructuredList (text : Value → String) :
    Value → Except String (List (Option Unstructured))
  | .null => .ok []
  | .arr items => jsonUnmarshalItems text items
  | v => .error ("json: cannot unmarshal " ++ v.jsonKind ++
      " into Go value of type []*unstructured.Unstructured")

/-- The function `yaml.Unmarshal(y, target)` of `github.com/ghodss/yaml`: convert the YAML to
JSON, then hand the JSON to the decoder of the target; each stage wraps its error. -/
def yamlUnmarshal {α : Type} (lib : Codec) (y : String)
    (target : Value → Except String α) : Except String α :=
  match lib.yamlToJSON y with
  | .error e => .error ("error converting YAML to JSON: " ++ e)
  | .ok j =>
    match target j with
    | .error e => .error ("error unmarshaling JSON: " ++ e)
    | .ok o => .ok o

/-! ## `regexp.Split` for the pattern `\n---` -/

/-- The four characters of the pattern of `diffSeparator`. -/
def diffSeparator : List Char := ['\n', '-', '-', '-']

/-- Scan for the leftmost, non-overlapping matches of `\n---`; `acc` holds the current
piece in reverse. -/
def splitChars : List Char → List Char → List (List Char)
  | acc, [] => [acc.reverse]
  | acc, '\n' :: '-' :: '-' :: '-' :: rest => acc.reverse :: splitChars [] rest
  | acc, c :: cs => splitChars (c :: acc) cs

/-- The call `diffSeparator.Split(out, -1)` (line 34).  Go's `Regexp.Split` cuts `out` at
the leftmost non-overlapping matches and returns the piece before each match and the
piece after the last one: one more piece than there are matches, the pattern being
non-empty, and the single piece `""` for the empty string. -/
def Split (out : String) : List String :=
  (splitChars [] out.data).map String.mk

/-- Whether the text has a match of `\n---`. -/
def hasSeparator : List Char → Bool
  | [] => false
  | c :: cs => diffSeparator.isPrefixOf (c :: cs) || hasSeparator cs

/-! ## `convert.go` -/

/-- The body of the loop of `StringToUnstructuredArray` (lines 37-59), on the state
`(objs, firstErr)`. -/
def processPart (lib : Codec) (st : List Unstructured × Option String) (part : String) :
    List Unstructured × Option String :=
  match yamlUnmarshal lib part jsonUnmarshalMap with
  | .error err =>
    (st.1, if st.2.isNone then some ("Failed to unmarshal manifest: " ++ err) else st.2)
  | .ok objMap =>
    if objMap.length = 0 then st
    else
      match yamlUnmarshal lib part (Unstructured.UnmarshalJSON lib.jsonText) with
      | .error err =>
        (st.1, if st.2.isNone then some ("Failed to unmarshal manifest: " ++ err) else st.2)
      | .ok obj => (st.1 ++ [obj], st.2)

/-- The loop of `StringToUnstructuredArray` over the given parts, from the empty state. -/
def processParts (lib : Codec) (parts : List String) : List Unstructured × Option String :=
  parts.foldl (processPart lib) ([], none)

/-- The function `StringToUnstructuredArray` (lines 32-61): the objects and the first error. -/
def StringToUnstructuredArray (lib : Codec) (out : String) :
    List Unstructured × Option String :=
  processParts lib (Split out)

/-- The function `RuntimeObjectToBytes` (lines 63-71). -/
def RuntimeObjectToBytes (lib : Codec) (obj : RuntimeObject) : Except String String :=
  match lib.jsonMarshal (.obj obj.fields) with
  | .error err => .error err
  | .ok bytes => .ok bytes

/-- The function `StringToUnstructured` (lines 73-81). -/
def StringToUnstructured (lib : Codec) (out : String) : Except String Unstructured :=
  match yamlUnmarshal lib out (Unstructured.UnmarshalJSON lib.jsonText) with
  | .error err => .error err
  | .ok obj => .ok obj

/-- The function `ObjectToObject` (lines 83-96); the source value is given as the tree
`yaml.Marshal` sees, the target by its decoder. -/
def ObjectToObject {α : Type} (lib : Codec) (src : Value)
    (target : Value → Except String α) : Except String α :=
  match lib.yamlMarshal src with
  | .error err => .error err
  | .ok fromBytes =>
    match yamlUnmarshal lib fromBytes target with
    | .error err => .error err
    | .ok v => .ok v

/-- The triple `schema.GroupVersionKind`. -/
structure GroupVersionKind where
  Group : String
  Version : String
  Kind : String
deriving DecidableEq, Repr

/-- The type registry `runtime.Scheme`, by its method `New`: a fresh zero object of the
type registered for the kind, or the not-registered error. -/
structure Scheme where
  New : GroupVersionKind → Except String RuntimeObject

/-- The function `BytesToObject` (lines 98-111). -/
def BytesToObject (lib : Codec) (src : String) (kind : GroupVersionKind) (scheme : Scheme) :
    Except String RuntimeObject :=
  match scheme.New kind with
  | .error err => .error err
  | .ok new =>
    match lib.yamlUnmarshalInto src new with
    | .error err => .error err
    | .ok populated => .ok populated

/-- The function `UnstructuredToObject` (lines 113-131). -/
def UnstructuredToObject (lib : Codec) (src : Unstructured) (kind : GroupVersionKind)
    (scheme : Scheme) : Except String RuntimeObject :=
  match lib.yamlMarshal (.obj src.Object) with
  | .error err => .error err
  | .ok fromBytes =>
    match scheme.New kind with
    | .error err => .error err
    | .ok new =>
      match lib.yamlUnmarshalInto fromBytes new with
      | .error err => .error err
      | .ok populated => .ok populated

/-! ## Reading the loop fragment by fragment -/

/-- The object a fragment stands for: it parses to a non-empty mapping and decodes as an
object. -/
def fragmentObject (lib : Codec) (part : String) : Option Unstructured :=
  match yamlUnmarshal lib part jsonUnmarshalMap with
  | .error _ => none
  | .ok objMap =>
    if objMap.length = 0 then none
    else
      match yamlUnmarshal lib part (Unstructured.UnmarshalJSON lib.jsonText) with
      | .error _ => none
      | .ok obj => some obj

/-- The error of a failing fragment: it does not parse to a mapping, or it parses to a
non-empty mapping that does not decode as an object. -/
def fragmentError (lib : Codec) (part : String) : Option String :=
  match yamlUnmarshal lib part jsonUnmarshalMap with
  | .error err => some err
  | .ok objMap =>
    if objMap.length = 0 then none
    else
      match yamlUnmarshal lib part (Unstructured.UnmarshalJSON lib.jsonText) with
      | .error err => some err
      | .ok _ => none

/-- A fragment with no content: it parses to a null or empty mapping. -/
def isEmptyFragment (lib : Codec) (part : String) : Bool :=
  match yamlUnmarshal lib part jsonUnmarshalMap with
  | .error _ => false
  | .ok objMap => objMap.length = 0

/-- The string made of `n` separators and nothing else. -/
def separators (n : Nat) : String :=
  String.join (List.replicate n "\n---")

/-- The fragments joined with the `\n---` separator. -/
def joinFragments : List String → String
  | [] => ""
  | [f] => f
  | f :: fs => f ++ "\n---" ++ joinFragments fs

/-- A fragment that stands for an object. -/
def isObjectFragment (lib : Codec) (part : String) : Bool :=
  (fragmentObject lib part).isSome

/-- A fragment that is valid YAML: the conversion to JSON accepts it. -/
def isValidYAML (lib : Codec) (part : String) : Bool :=
  (lib.yamlToJSON part).isOk

/-! ## A small executable codec

An instance of `Codec` on a sublanguage where JSON and YAML flow syntax coincide:
`null`, `true`, `false`, numbers, double-quoted strings, `[...]` and `{...}`, with
spaces and line breaks between tokens; the empty document is null.  As the YAML
reader does, it refuses control characters, folds a line break inside a quoted
string into a space, and lets the last of two equal keys win.  It serves to
evaluate the package on concrete texts. -/

namespace Mini

/-- The characters the YAML reader admits; any other is a control character. -/
def isAllowed (c : Char) : Bool :=
  c.toNat == 0x09 || c.toNat == 0x0A || c.toNat == 0x0D ||
  (0x20 ≤ c.toNat && c.toNat ≤ 0x7E) || c.toNat == 0x85 ||
  (0xA0 ≤ c.toNat && c.toNat ≤ 0xD7FF) || (0xE000 ≤ c.toNat && c.toNat ≤ 0xFFFD) ||
  (0x10000 ≤ c.toNat && c.toNat ≤ 0x10FFFF)

/-- Blank characters between tokens. -/
def isSpace (c : Char) : Bool :=
  c == ' ' || c == '\n' || c == '\r'

/-- The line breaks of YAML that can stand inside a scalar: LF, CR and NEL. -/
def isBreak (c : Char) : Bool :=
  c == '\n' || c == '\r' || c == '\u0085'

/-- The characters of a number. -/
def isNumberChar (c : Char) : Bool :=
  c.isDigit || c == '-' || c == '+' || c == '.' || c == 'e' || c == 'E'

/-- Drop leading blanks. -/
def skipSpace : List Char → List Char
  | [] => []
  | c :: cs => if isSpace c then skipSpace cs else c :: cs

/-- Read a string up to its closing quote; `acc` holds what was read, in reverse.  The
escapes `\"`, `\\`, `\/`, `\n`, `\r`, `\t` are read, and a line break folds into a
space. -/
def readString : List Char → List Char → Option (String × List Char)
  | _, [] => none
  | acc, '"' :: cs => some (String.mk acc.reverse, cs)
  | acc, '\\' :: '"' :: cs => readString ('"' :: acc) cs
  | acc, '\\' :: '\\' :: cs => readString ('\\' :: acc) cs
  | acc, '\\' :: '/' :: cs => readString ('/' :: acc) cs
  | acc, '\\' :: 'n' :: cs => readString ('\n' :: acc) cs
  | acc, '\\' :: 'r' :: cs => readString ('\r' :: acc) cs
  | acc, '\\' :: 't' :: cs => readString ('\t' :: acc) cs
  | _, '\\' :: _ => none
  | acc, c :: cs => if isBreak c then readString (' ' :: acc) cs else readString (c :: acc) cs

/-- Add a member read before the members `fields` that follow it: a later member of the
same key wins. -/
def addMember (k : String) (v : Value) (fields : List (String × Value)) :
    List (String × Value) :=
  if fields.any (fun kv => kv.1 == k) then fields else (k, v) :: fields

mutual

/-- Read one value; the first argument bounds the work. -/
def parseValue : Nat → List Char → Option (Value × List Char)
  | 0, _ => none
  | n + 1, cs =>
    match skipSpace cs with
    | 'n' :: 'u' :: 'l' :: 'l' :: rest => some (.null, rest)
    | 't' :: 'r' :: 'u' :: 'e' :: rest => some (.bool true, rest)
    | 'f' :: 'a' :: 'l' :: 's' :: 'e' :: rest => some (.bool false, rest)
    | '"' :: rest =>
      match readString [] rest with
      | some (s, r) => some (.str s, r)
      | none => none
    | '[' :: rest =>
      match skipSpace rest with
      | ']' :: r => some (.arr [], r)
      | r =>
        match parseItems n r with
        | some (items, r2) => some (.arr items, r2)
        | none => none
    | '\x7b' :: rest =>
      match skipSpace rest with
      | '\x7d' :: r => some (.obj [], r)
      | r =>
        match parseMembers n r with
        | some (fields, r2) => some (.obj fields, r2)
        | none => none
    | c :: rest =>
      if c.isDigit || c == '-' then
        some (.number (String.mk ((c :: rest).takeWhile isNumberChar)),
          (c :: rest).dropWhile isNumberChar)
      else none
    | [] => none

/-- Read the items of an array up to the closing bracket. -/
def parseItems : Nat → List Char → Option (List Value × List Char)
  | 0, _ => none
  | n + 1, cs =>
    match parseValue n cs with
    | none => none
    | some (v, r) =>
      match skipSpace r with
      | ',' :: r2 =>
        match parseItems n r2 with
        | some (items, r3) => some (v :: items, r3)
        | none => none
      | ']' :: r2 => some ([v], r2)
      | _ => none

/-- Read the members of a mapping up to the closing brace. -/
def parseMembers : Nat → List Char → Option (List (String × Value) × List Char)
  | 0, _ => none
  | n + 1, cs =>
    match skipSpace cs with
    | '"' :: rest =>
      match readString [] rest with
      | none => none
      | some (k, r) =>
        match skipSpace r with
        | ':' :: r1 =>
          match parseValue n r1 with
          | none => none
          | some (v, r2) =>
            match skipSpace r2 with
            | ',' :: r3 =>
              match parseMembers n r3 with
              | some (fields, r4) => some (addMember k v fields, r4)
              | none => none
            | '\x7d' :: r3 => some ([(k, v)], r3)
            | _ => none
        | _ => none
    | _ => none

end

/-- Read a whole document. -/
def parse (text : String) : Except String Value :=
  if text.data.all isAllowed then
    match skipSpace text.data with
    | [] => .ok .null
    | cs =>
      match parseValue (cs.length + 1) cs with
      | some (v, rest) =>
        match skipSpace rest with
        | [] => .ok v
        | _ => .error "yaml: did not find expected <document start>"
      | none => .error "yaml: did not find expected node content"
  else .error "yaml: control characters are not allowed"

/-- The characters of a string as `encoding/json` writes them between the quotes: the
quote, the backslash, LF, CR and TAB are escaped, any other character is written as
it is (the other characters below U+0020, which `encoding/json` writes as `\u00XX`,
are not covered). -/
def escape : List Char → List Char
  | [] => []
  | '"' :: cs => '\\' :: '"' :: escape cs
  | '\\' :: cs => '\\' :: '\\' :: escape cs
  | '\n' :: cs => '\\' :: 'n' :: escape cs
  | '\r' :: cs => '\\' :: 'r' :: escape cs
  | '\t' :: cs => '\\' :: 't' :: escape cs
  | c :: cs => c :: escape cs

/-- Whether one key comes before another, character by character. -/
def keyBefore : List Char → List Char → Bool
  | [], [] => false
  | [], _ :: _ => true
  | _ :: _, [] => false
  | a :: as, b :: bs => a.toNat < b.toNat || (a.toNat == b.toNat && keyBefore as bs)

/-- Insert a written member into members ordered by key. -/
def insertByKey (m : String × List Char) : List (String × List Char) → List (String × List Char)
  | [] => [m]
  | x :: xs => if keyBefore m.1.data x.1.data then m :: x :: xs else x :: insertByKey m xs

/-- Order written members by key, as `encoding/json` orders the keys of a map. -/
def sortByKey : List (String × List Char) → List (String × List Char)
  | [] => []
  | m :: ms => insertByKey m (sortByKey ms)

/-- Join written members with commas. -/
def joinMembers : List (String × List Char) → List Char
  | [] => []
  | [(k, a)] => '"' :: escape k.data ++ '"' :: ':' :: a
  | (k, a) :: rest => '"' :: escape k.data ++ '"' :: ':' :: a ++ ',' :: joinMembers rest

mutual

/-- Write a value compactly; nothing is written for a tree holding an unsupported
value.  With `sorted` the members of a mapping are written in key order (a Go map),
without in the order given (the fields of a Go struct). -/
def encode (sorted : Bool) : Value → Option (List Char)
  | .null => some ['n', 'u', 'l', 'l']
  | .bool true => some ['t', 'r', 'u', 'e']
  | .bool false => some ['f', 'a', 'l', 's', 'e']
  | .number lit => some lit.data
  | .str s => some ('"' :: escape s.data ++ ['"'])
  | .arr items =>
    match encodeItems sorted items with
    | some body => some ('[' :: body ++ [']'])
    | none => none
  | .obj fields =>
    match encodeMembers sorted fields with
    | some members =>
      some ('\x7b' :: joinMembers (if sorted then sortByKey members else members) ++ ['\x7d'])
    | none => none
  | .unsupported => none

/-- Write the items of an array, separated by commas. -/
def encodeItems (sorted : Bool) : List Value → Option (List Char)
  | [] => some []
  | [v] => encode sorted v
  | v :: vs =>
    match encode sorted v, encodeItems sorted vs with
    | some a, some b => some (a ++ ',' :: b)
    | _, _ => none

/-- Write the value of each member of a mapping. -/
def encodeMembers (sorted : Bool) : List (String × Value) → Option (List (String × List Char))
  | [] => some []
  | (k, v) :: rest =>
    match encode sorted v, encodeMembers sorted rest with
    | some a, some b => some ((k, a) :: b)
    | _, _ => none

end

end Mini

/-- The small codec as an instance of the library record. -/
def miniCodec : Codec where
  yamlToJSON := Mini.parse
  jsonText v := String.mk ((Mini.encode true v).getD [])
  jsonMarshal v :=
    match Mini.encode false v with
    | some cs => .ok (String.mk cs)
    | none => .error "json: unsupported value"
  yamlMarshal v :=
    match Mini.encode false v with
    | some cs => .ok (String.mk cs)
    | none => .error "error marshaling into JSON: json: unsupported value"
  yamlUnmarshalInto text new :=
    match Mini.parse text with
    | .error e => .error ("error converting YAML to JSON: " ++ e)
    | .ok .null => .ok new
    | .ok (.obj m) => .ok { new with fields := m }
    | .ok v => .error ("error unmarshaling JSON: json: cannot unmarshal " ++ v.jsonKind ++
        " into Go value of type " ++ new.goType)

/-! ## Sample registry and objects -/

/-- The text of `GroupVersion.String()`. -/
def GroupVersionKind.groupVersion (gvk : GroupVersionKind) : String :=
  if gvk.Group.length = 0 then gvk.Version else gvk.Group ++ "/" ++ gvk.Version

/-- The message of `runtime.NewNotRegisteredErrForKind`. -/
def notRegisteredErrForKind (schemeName : String) (gvk : GroupVersionKind) : String :=
  "no kind \"" ++ gvk.Kind ++ "\" is registered for version \"" ++ gvk.groupVersion ++
    "\" in scheme \"" ++ schemeName ++ "\""

/-- A registry holding the listed kinds, each with the zero object of its type. -/
def Scheme.ofTypes (schemeName : String) (types : List (GroupVersionKind × RuntimeObject)) :
    Scheme where
  New kind :=
    match types.lookup kind with
    | some zero => .ok zero
    | none => .error (notRegisteredErrForKind schemeName kind)

/-- The kind `v1/Pod`. -/
def podKind : GroupVersionKind := { Group := "", Version := "v1", Kind := "Pod" }

/-- A kind no registry below knows. -/
def gadgetKind : GroupVersionKind := { Group := "example.io", Version := "v1", Kind := "Gadget" }

/-- A registry that knows `v1/Pod`. -/
def testScheme : Scheme :=
  Scheme.ofTypes "test" [(podKind, { goType := "*v1.Pod", fields := [] })]

/-- The Pod of the controller test after `setType`: named `test`, no namespace. -/
def testPod : RuntimeObject :=
  { goType := "*v1.Pod"
    fields := [("kind", .str "Pod"), ("apiVersion", .str "v1"),
      ("metadata", .obj [("name", .str "test"), ("creationTimestamp", .null)]),
      ("spec", .obj [("containers", .null)]), ("status", .obj [])] }

/-- The same Pod before `setType`: its `kind` and `apiVersion` are empty and therefore
absent from the encoding. -/
def untypedPod : RuntimeObject :=
  { goType := "*v1.Pod"
    fields := [("metadata", .obj [("name", .str "test"), ("creationTimestamp", .null)]),
      ("spec", .obj [("containers", .null)]), ("status", .obj [])] }

/-- A Pod whose apiVersion has two slashes. -/
def slashPod : RuntimeObject :=
  { goType := "*v1.Pod"
    fields := [("kind", .str "Pod"), ("apiVersion", .str "a/b/c"),
      ("metadata", .obj [("name", .str "test"), ("creationTimestamp", .null)]),
      ("spec", .obj [("containers", .null)]), ("status", .obj [])] }

/-- A Pod whose name holds the control character U+007F, which `encoding/json` writes as
it is and the YAML reader refuses. -/
def delPod : RuntimeObject :=
  { goType := "*v1.Pod"
    fields := [("kind", .str "Pod"), ("apiVersion", .str "v1"),
      ("metadata", .obj [("name", .str "a\x7fb"), ("creationTimestamp", .null)]),
      ("spec", .obj [("containers", .null)]), ("status", .obj [])] }

/-- A Pod whose name holds the line break U+0085 (NEL), which `encoding/json` writes as it
is and the YAML reader folds into a space. -/
def nelPod : RuntimeObject :=
  { goType := "*v1.Pod"
    fields := [("kind", .str "Pod"), ("apiVersion", .str "v1"),
      ("metadata", .obj [("name", .str "a\u0085b"), ("creationTimestamp", .null)]),
      ("spec", .obj [("containers", .null)]), ("status", .obj [])] }

/-- A generic object holding a value that `encoding/json` cannot encode. -/
def unencodable : Unstructured :=
  { Object := [("kind", .str "Pod"), ("apiVersion", .str "v1"), ("weight", .unsupported)] }

/-- The value `yaml.Marshal` sees for a sequence of typed objects. -/
def objectsValue (objs : List RuntimeObject) : Value :=
  .arr (objs.map fun o => .obj o.fields)

/-! ## The reconcile pass

The controller `TemplateInstanceReconciler` is exercised by
`src/pkg/manager/controllers/templateinstance_controller_test.go`, but its code is
not among the sources.  The definitions of this section follow the specification
(§3, §4.2, §4.3, §4.4, §7); the cluster store is an in-memory map, as the fake
client of the test is, that is either reachable for a whole pass or not at all. -/

/-- Modelled from the spec: the aggregate status of an Instance (§3: `Pending`,
`Deployed`, `Failed`); the controller and its API types are missing from the sources. -/
inductive DeploymentStatus where
  | Pending
  | Deployed
  | Failed
deriving DecidableEq, Repr

/-- Modelled from the spec: the Normalized Object of §3, a kind-tagged object with its
apiVersion/kind identity, name and namespace and an open map of remaining fields; the
controller that passes it between renderer and applier is missing from the sources. -/
structure NormalizedObject where
  id : Identity
  Object : Fields

/-- Modelled from the spec: a generic object coming out of the Object Normalizer (§4.1),
taken as a Normalized Object; the controller code doing so is missing from the
sources. -/
def NormalizedObject.ofUnstructured (u : Unstructured) : NormalizedObject :=
  { id := u.identity, Object := u.Object }

/-- Modelled from the spec: the mutable Status of an Instance (§3, §6): aggregate status,
reason, and the ordered Applied Object References; the API type is missing from the
sources. -/
structure InstanceStatus where
  Status : DeploymentStatus
  Reason : String
  Objects : List Identity
deriving DecidableEq, Repr

/-- Modelled from the spec: an Instance (§3): name, namespace, the name of its Template,
and its status; the API type is missing from the sources. -/
structure Instance where
  Name : String
  Namespace : String
  Template : String
  Status : InstanceStatus
deriving DecidableEq, Repr

/-- Modelled from the spec: the chart-style configuration of a Template (§3, §6): release
name, chart reference, values; the API type is missing from the sources. -/
structure HelmConfiguration where
  ReleaseName : String
  Chart : String
  Values : String
deriving DecidableEq, Repr

/-- Modelled from the spec: the Resources of a Template (§3, §6): a static manifest list
or a chart configuration, each possibly unset; the API type is missing from the
sources. -/
structure TemplateResources where
  Manifests : Option (List String)
  Helm : Option HelmConfiguration
deriving DecidableEq, Repr

/-- Modelled from the spec: a Template (§3): a unique name and its Resources; the API
type is missing from the sources. -/
structure Template where
  Name : String
  Resources : TemplateResources
deriving DecidableEq, Repr

/-- Modelled from the spec: the business failures of the taxonomy of §7, each with the
detail or the error that caused it; the controller that raises them is missing from
the sources. -/
inductive Failure where
  | ConfigurationError (detail : String)
  | RenderError (cause : String)
  | ApplyError (cause : String)
  | NotFoundError (template : String)

/-- Modelled from the spec: the human-readable reason string a failure leaves on the
status (§7): the class of the failure and, verbatim, the error that caused it; the
controller that writes it is missing from the sources. -/
def Failure.message : Failure → String
  | .ConfigurationError detail => "ConfigurationError: " ++ detail
  | .RenderError cause => "RenderError: " ++ cause
  | .ApplyError cause => "ApplyError: " ++ cause
  | .NotFoundError template => "TemplateNotFoundError: " ++ template

/-- Modelled from the spec: the cluster object store (§1, §6), keyed by kind, namespace
and name, as an in-memory state: the Templates (by name), the Instances (by namespace
and name), the applied objects (by identity), and the communication failure of the
store when it cannot be reached (the TransportError of §7); the store client is
missing from the sources. -/
structure Cluster where
  Templates : List Template
  Instances : List Instance
  Objects : List NormalizedObject
  Outage : Option String

/-- Modelled from the spec: the collaborators of a reconcile pass (§1, §6): the libraries
of the Object Normalizer, the external templating engine
`Render(client, releaseName, namespace, config)`, which kinds are namespace-scoped
(§4.3), and the answer of the store to the write of an object (`none` accepts it,
`some e` is the ApplyError of §7); the reconciler type holding them is missing from
the sources. -/
structure Collaborators where
  lib : Codec
  engine : Cluster → String → String → HelmConfiguration → Except String (List Unstructured)
  namespaced : String → String → Bool
  refuse : NormalizedObject → Option String

/-- Modelled from the spec: `Get` of an Instance by namespace and name (§6), its errors
telling "not found" (`.ok none`) from a failure of the store (`.error`); the store
client is missing from the sources. -/
def Cluster.getInstance (c : Cluster) (ns name : String) : Except String (Option Instance) :=
  match c.Outage with
  | some e => .error e
  | none => .ok (c.Instances.find? (fun i => i.Namespace == ns && i.Name == name))

/-- Modelled from the spec: `Get` of a Template by name (§4.4 step 1, §6), its errors
telling "not found" from a failure of the store; the store client is missing from the
sources. -/
def Cluster.getTemplate (c : Cluster) (name : String) : Except String (Option Template) :=
  match c.Outage with
  | some e => .error e
  | none => .ok (c.Templates.find? (fun t => t.Name == name))

/-- Modelled from the spec: the state of the store after the status of the Instance with
this namespace and name is replaced; the store client is missing from the sources. -/
def Cluster.setInstanceStatus (c : Cluster) (ns name : String) (st : InstanceStatus) :
    Cluster :=
  { c with
    Instances := c.Instances.map fun i =>
      if i.Namespace == ns && i.Name == name then { i with Status := st } else i }

/-- Modelled from the spec: the status write-back of §4.4 ("persist"): the pass ends with
no error and the status replaced, or, when the store cannot be reached, with the
transport error for the dispatcher (§7) and the store as it was; the reconciler is
missing from the sources. -/
def persist (c : Cluster) (ns name : String) (st : InstanceStatus) : Option String × Cluster :=
  match c.Outage with
  | some e => (some e, c)
  | none => (none, c.setInstanceStatus ns name st)

/-- Modelled from the spec: the upsert of §4.3: create the object, or, when an object of
the same identity exists, update it in place; the applier is missing from the
sources. -/
def Cluster.upsert (c : Cluster) (o : NormalizedObject) : Cluster :=
  if c.Objects.any (fun x => x.id == o.id) then
    { c with Objects := c.Objects.map fun x => if x.id == o.id then o else x }
  else
    { c with Objects := c.Objects ++ [o] }

/-- Modelled from the spec: the namespacing rule of §4.3: an object that has no namespace
set and whose kind is namespace-scoped is stamped with the namespace of the Instance;
the applier is missing from the sources. -/
def stamp (env : Collaborators) (instanceNamespace : String) (o : NormalizedObject) :
    NormalizedObject :=
  if env.namespaced o.id.APIVersion o.id.Kind && o.id.Namespace == "" then
    { o with id := { o.id with Namespace := instanceNamespace } }
  else o

/-- Modelled from the spec: `Apply(clusterStore, instanceNamespace, object)` of §4.3: stamp
the namespace, upsert, return the Applied Object Reference, or surface the error of
the store as an ApplyError; the applier is missing from the sources. -/
def Apply (env : Collaborators) (c : Cluster) (instanceNamespace : String)
    (o : NormalizedObject) : Except Failure (Identity × Cluster) :=
  match env.refuse (stamp env instanceNamespace o) with
  | some e => .error (.ApplyError e)
  | none => .ok ((stamp env instanceNamespace o).id, c.upsert (stamp env instanceNamespace o))

/-- Modelled from the spec: the static branch of `Render` (§4.2): each manifest entry, a
raw object document, is normalized in list order by `ParseFragment` (§4.1,
`StringToUnstructured`), a fragment that fails to parse being a RenderError (§7); the
renderer is missing from the sources. -/
def renderManifests (lib : Codec) : List String → Except Failure (List NormalizedObject)
  | [] => .ok []
  | m :: ms =>
    match StringToUnstructured lib m with
    | .error e => .error (.RenderError e)
    | .ok u =>
      match renderManifests lib ms with
      | .error e => .error e
      | .ok us => .ok (NormalizedObject.ofUnstructured u :: us)

/-- Modelled from the spec: `Render(template, instance)` of §4.2: exactly one resource kind
must be set (else a ConfigurationError); a manifest list is normalized in order; a
chart configuration is handed to the engine with the release name, the namespace of
the Instance and the configuration, an engine error being returned verbatim, as the
cause of a RenderError; the renderer is missing from the sources. -/
def Render (env : Collaborators) (c : Cluster) (t : Template) (i : Instance) :
    Except Failure (List NormalizedObject) :=
  match t.Resources.Manifests, t.Resources.Helm with
  | some ms, none => renderManifests env.lib ms
  | none, some cfg =>
    match env.engine c cfg.ReleaseName i.Namespace cfg with
    | .error e => .error (.RenderError e)
    | .ok objs => .ok (objs.map NormalizedObject.ofUnstructured)
  | _, _ => .error (.ConfigurationError "exactly one of manifests and helm must be set")

/-- Modelled from the spec: the Apply step of §4.4: the rendered objects are applied in
order, the references accumulate, and the first error stops the pass; the reconciler
is missing from the sources. -/
def applyAll (env : Collaborators) (instanceNamespace : String) :
    Cluster → List Identity → List NormalizedObject → Cluster × List Identity × Option Failure
  | c, refs, [] => (c, refs, none)
  | c, refs, o :: os =>
    match Apply env c instanceNamespace o with
    | .error e => (c, refs, some e)
    | .ok (ref, c2) => applyAll env instanceNamespace c2 (refs ++ [ref]) os

/-- Modelled from the spec: one reconcile pass (§4.4), returning the error handed to the
dispatcher and the cluster afterwards.  Load: a store that cannot be reached ends the
pass with its transport error; an absent Instance ends it with none; an absent
Template is recorded as Failed.  Render: a failure is recorded as Failed with its
message as reason, the references staying as they were.  Apply: the first failure is
recorded as Failed with the references accumulated so far.  Finalize: Deployed, the
reason cleared, the references replaced.  A business failure is recorded on the
status and not returned; only a transport error is returned.  The reconciler is
missing from the sources. -/
def Reconcile (env : Collaborators) (c : Cluster) (ns name : String) :
    Option String × Cluster :=
  match c.getInstance ns name with
  | .error e => (some e, c)
  | .ok none => (none, c)
  | .ok (some inst) =>
    match c.getTemplate inst.Template with
    | .error e => (some e, c)
    | .ok none =>
      persist c ns name
        { Status := .Failed, Reason := (Failure.NotFoundError inst.Template).message,
          Objects := inst.Status.Objects }
    | .ok (some tpl) =>
      match Render env c tpl inst with
      | .error f =>
        persist c ns name
          { Status := .Failed, Reason := f.message, Objects := inst.Status.Objects }
      | .ok objs =>
        match applyAll env inst.Namespace c [] objs with
        | (c2, refs, some f) =>
          persist c2 ns name { Status := .Failed, Reason := f.message, Objects := refs }
        | (c2, refs, none) =>
          persist c2 ns name { Status := .Deployed, Reason := "", Objects := refs }

/-! ## The scenarios of the controller test -/

/-- The Instance `test/test` of the test, referring to the Template `test`. -/
def testInstance : Instance :=
  { Name := "test", Namespace := "test", Template := "test"
    Status := { Status := .Pending, Reason := "", Objects := [] } }

/-- The manifest of the case "Simple pod": `mustConvert` of the Pod named `test`. -/
def podManifest : String :=
  "\x7b\"kind\":\"Pod\",\"apiVersion\":\"v1\",\"metadata\":\x7b\"name\":\"test\",\"creationTimestamp\":null\x7d,\"spec\":\x7b\"containers\":null\x7d,\"status\":\x7b\x7d\x7d"

/-- A manifest of a cluster-scoped kind, a Namespace named `team`. -/
def namespaceManifest : String :=
  "\x7b\"kind\":\"Namespace\",\"apiVersion\":\"v1\",\"metadata\":\x7b\"name\":\"team\"\x7d\x7d"

/-- A cluster holding the given Template and the Instance of the test, and no object. -/
def testCluster (t : Template) : Cluster :=
  { Templates := [t], Instances := [testInstance], Objects := [], Outage := none }

/-- The type `fakeHelmRunner` of the controller test (lines 200-203): the typed objects to
answer with, and the error to answer with, if any. -/
structure fakeHelmRunner where
  out : List RuntimeObject
  err : Option String

/-- The method `fakeHelmRunner.Template` of the controller test (lines 205-217); it ignores
its arguments. -/
def fakeHelmRunner.Template (lib : Codec) (f : fakeHelmRunner) :
    Except String (List (Option Unstructured)) :=
  match f.err with
  | some e => .error e
  | none =>
    match ObjectToObject lib (objectsValue f.out) (jsonUnmarshalUnstructuredList lib.jsonText) with
    | .error err => .error err
    | .ok result => .ok result

/-- The collaborators of the test: the small codec, the fake Helm runner as engine (a nil
pointer in its answer, which typed objects never give, is left out), every kind but
`Namespace` namespace-scoped, a store that accepts every write. -/
def testCollaborators (f : fakeHelmRunner) : Collaborators :=
  { lib := miniCodec
    engine := fun _ _ _ _ =>
      match f.Template miniCodec with
      | .error e => .error e
      | .ok objs => .ok (objs.filterMap id)
    namespaced := fun _ kind => kind != "Namespace"
    refuse := fun _ => none }

/-- The Template of the cases with a Helm configuration. -/
def helmTemplate : Template :=
  { Name := "test"
    Resources := { Manifests := none, Helm := some { ReleaseName := "", Chart := "", Values := "" } } }

/-- A Template with the given static manifests. -/
def staticTemplate (manifests : List String) : Template :=
  { Name := "test", Resources := { Manifests := some manifests, Helm := none } }

/-! ## Theorems -/

set_option maxRecDepth 100000

/-! ### The loop of `StringToUnstructuredArray` -/

theorem processPart_eq (lib : Codec) (st : List Unstructured × Option String)
    (part : String) :
    processPart lib st part =
      (st.1 ++ (fragmentObject lib part).toList,
        match st.2 with
        | some e => some e
        | none => (fragmentError lib part).map ("Failed to unmarshal manifest: " ++ ·)) := by
  obtain ⟨objs, err⟩ := st
  unfold processPart fragmentObject fragmentError
  cases h₁ : yamlUnmarshal lib part jsonUnmarshalMap with
  | error e => cases err <;> simp
  | ok m =>
    by_cases hm : m.length = 0
    · cases err <;> simp [hm]
    · cases h₂ : yamlUnmarshal lib part (Unstructured.UnmarshalJSON lib.jsonText) with
      | error e => cases err <;> simp [hm]
      | ok o => cases err <;> simp [hm]

theorem foldl_processPart (lib : Codec) (parts : List String)
    (objs : List Unstructured) (err : Option String) :
    parts.foldl (processPart lib) (objs, err) =
      (objs ++ parts.filterMap (fragmentObject lib),
        match err with
        | some e => some e
        | none => ((parts.filterMap (fragmentError lib)).head?).map
            ("Failed to unmarshal manifest: " ++ ·)) := by
  induction parts generalizing objs err with
  | nil => cases err <;> simp
  | cons p ps ih =>
    rw [List.foldl_cons, processPart_eq, ih]
    cases ho : fragmentObject lib p <;> cases he : fragmentError lib p <;> cases err <;>
      simp [List.filterMap_cons, ho, he]

theorem processParts_eq (lib : Codec) (parts : List String) :
    processParts lib parts =
      (parts.filterMap (fragmentObject lib),
        ((parts.filterMap (fragmentError lib)).head?).map
          ("Failed to unmarshal manifest: " ++ ·)) := by
  unfold processParts
  rw [foldl_processPart]
  simp

/-- C1: `StringToUnstructuredArray` never stops at a failing fragment.  Its objects are,
in input order, exactly the objects of the fragments between `\n---` separators that
parse to a non-empty mapping and decode as an object (also those after a failing
fragment); its error is nil when no fragment fails and otherwise the error of the
leftmost failing fragment behind the words `Failed to unmarshal manifest: `. -/
theorem StringToUnstructuredArray_objects_and_first_error (lib : Codec) (out : String) :
    StringToUnstructuredArray lib out =
      ((Split out).filterMap (fragmentObject lib),
        (((Split out).filterMap (fragmentError lib)).head?).map
          ("Failed to unmarshal manifest: " ++ ·)) := by
  unfold StringToUnstructuredArray processParts
  rw [foldl_processPart]
  simp

/-! ### `Split` -/

theorem splitChars_separator (acc rest : List Char) :
    splitChars acc ('\n' :: '-' :: '-' :: '-' :: rest) = acc.reverse :: splitChars [] rest := by
  rw [splitChars]

theorem splitChars_step (acc : List Char) (c : Char) (cs : List Char)
    (h : diffSeparator.isPrefixOf (c :: cs) = false) :
    splitChars acc (c :: cs) = splitChars (c :: acc) cs := by
  rw [splitChars]
  intro rest hc hcs
  subst hc hcs
  simp [diffSeparator, List.isPrefixOf] at h

theorem splitChars_no_separator (l : List Char) (h : hasSeparator l = false)
    (acc : List Char) : splitChars acc l = [acc.reverse ++ l] := by
  induction l generalizing acc with
  | nil => simp [splitChars]
  | cons c cs ih =>
    simp only [hasSeparator, Bool.or_eq_false_iff] at h
    rw [splitChars_step acc c cs h.1, ih h.2]
    simp

theorem splitChars_fragment (f : List Char) (h : hasSeparator f = false)
    (acc rest : List Char) :
    splitChars acc (f ++ diffSeparator ++ rest) = (acc.reverse ++ f) :: splitChars [] rest := by
  induction f generalizing acc with
  | nil => simp [diffSeparator, splitChars_separator]
  | cons c cs ih =>
    simp only [hasSeparator, Bool.or_eq_false_iff] at h
    have hp : diffSeparator.isPrefixOf (c :: (cs ++ diffSeparator ++ rest)) = false := by
      have h1 := h.1
      rcases cs with _ | ⟨d, _ | ⟨e, _ | ⟨g, t⟩⟩⟩ <;>
        simp_all [diffSeparator, List.isPrefixOf]
      exact h.1
    rw [List.cons_append, List.cons_append, splitChars_step acc c _ hp, ih h.2]
    simp

theorem Split_of_no_separator (out : String) (h : hasSeparator out.data = false) :
    Split out = [out] := by
  simp [Split, splitChars_no_separator out.data h]

theorem joinFragments_cons_data (f g : String) (fs : List String) :
    (joinFragments (f :: g :: fs)).data =
      f.data ++ diffSeparator ++ (joinFragments (g :: fs)).data := by
  simp [joinFragments, diffSeparator, String.data_append]

theorem Split_joinFragments (frags : List String) (hne : frags ≠ [])
    (hsep : ∀ f ∈ frags, hasSeparator f.data = false) :
    Split (joinFragments frags) = frags := by
  induction frags with
  | nil => exact absurd rfl hne
  | cons f fs ih =>
    cases fs with
    | nil =>
      simpa [joinFragments] using Split_of_no_separator f (hsep f (by simp))
    | cons g gs =>
      have hf := hsep f (by simp)
      have ih2 := ih (by simp) (fun x hx => hsep x (List.mem_cons_of_mem _ hx))
      unfold Split at ih2 ⊢
      rw [joinFragments_cons_data, splitChars_fragment _ hf, List.map_cons, ih2]
      simp

theorem separators_succ_data (n : Nat) :
    (separators (n + 1)).data = [] ++ diffSeparator ++ (separators n).data := by
  simp [separators, List.replicate_succ, diffSeparator]

theorem Split_separators (n : Nat) : Split (separators n) = List.replicate (n + 1) "" := by
  induction n with
  | zero => decide
  | succ n ih =>
    unfold Split at ih ⊢
    rw [separators_succ_data, splitChars_fragment [] rfl, List.map_cons, ih]
    simp [List.replicate_succ]

/-! ### Empty fragments -/

theorem fragmentObject_of_empty (lib : Codec) (part : String)
    (h : isEmptyFragment lib part = true) : fragmentObject lib part = none := by
  unfold isEmptyFragment at h
  unfold fragmentObject
  cases hm : yamlUnmarshal lib part jsonUnmarshalMap with
  | error e => rfl
  | ok m => simp [hm] at h; simp [h]

theorem fragmentError_of_empty (lib : Codec) (part : String)
    (h : isEmptyFragment lib part = true) : fragmentError lib part = none := by
  unfold isEmptyFragment at h
  unfold fragmentError
  cases hm : yamlUnmarshal lib part jsonUnmarshalMap with
  | error e => simp [hm] at h
  | ok m => simp [hm] at h; simp [h]

theorem filterMap_filter_not_empty {β : Type} (lib : Codec) (f : String → Option β)
    (hf : ∀ p, isEmptyFragment lib p = true → f p = none) (parts : List String) :
    (parts.filter (fun p => !isEmptyFragment lib p)).filterMap f = parts.filterMap f := by
  induction parts with
  | nil => rfl
  | cons p ps ih =>
    by_cases hp : isEmptyFragment lib p = true
    · simp [List.filter_cons, List.filterMap_cons, hp, hf p hp, ih]
    · simp only [Bool.not_eq_true] at hp
      simp [List.filter_cons, List.filterMap_cons, hp, ih]

/-- C2: a fragment that parses to a null or empty mapping leaves the state of the loop
as it is (no object, no error), so the result is that of the remaining fragments;
when empty text is such a fragment, a string of `n` separators and nothing else (the
empty string for `n = 0`) gives no object and a nil error. -/
theorem empty_fragments_are_dropped (lib : Codec)
    (hempty : isEmptyFragment lib "" = true) :
    (∀ st part, isEmptyFragment lib part = true → processPart lib st part = st) ∧
    (∀ out, StringToUnstructuredArray lib out =
      processParts lib ((Split out).filter (fun p => !isEmptyFragment lib p))) ∧
    (∀ n, StringToUnstructuredArray lib (separators n) = ([], none)) := by
  refine ⟨?_, ?_, ?_⟩
  · intro st part h
    rw [processPart_eq, fragmentObject_of_empty lib part h, fragmentError_of_empty lib part h]
    obtain ⟨objs, err⟩ := st
    cases err <;> simp
  · intro out
    unfold StringToUnstructuredArray processParts
    rw [foldl_processPart, foldl_processPart,
      filterMap_filter_not_empty lib _ (fragmentObject_of_empty lib),
      filterMap_filter_not_empty lib _ (fragmentError_of_empty lib)]
  · intro n
    unfold StringToUnstructuredArray
    rw [processParts_eq, Split_separators]
    have ho : (List.replicate (n + 1) "").filterMap (fragmentObject lib) = [] := by
      rw [List.filterMap_eq_nil_iff]
      intro x hx
      rw [List.eq_of_mem_replicate hx]
      exact fragmentObject_of_empty lib "" hempty
    have he : (List.replicate (n + 1) "").filterMap (fragmentError lib) = [] := by
      rw [List.filterMap_eq_nil_iff]
      intro x hx
      rw [List.eq_of_mem_replicate hx]
      exact fragmentError_of_empty lib "" hempty
    rw [ho, he]
    rfl

/-- Witness of C2 on the small codec: three separators in a row. -/
theorem empty_fragments_are_dropped_witness :
    isEmptyFragment miniCodec "" = true ∧
      StringToUnstructuredArray miniCodec "\n---\n---\n---" = ([], none) :=
  ⟨by decide, (empty_fragments_are_dropped miniCodec (by decide)).2.2 3⟩

/-! ### Joined fragments -/

theorem forall_or_of_countP {α : Type} (p q : α → Bool) (l : List α)
    (hdisj : ∀ x, p x = true → q x = false)
    (h : l.length = l.countP p + l.countP q) : ∀ x ∈ l, p x = true ∨ q x = true := by
  induction l with
  | nil => simp
  | cons a as ih =>
    have hp := List.countP_le_length p (l := as)
    have hq := List.countP_le_length q (l := as)
    have hle : as.countP p + as.countP q ≤ as.length := by
      clear ih h hp hq
      induction as with
      | nil => simp
      | cons b bs ihb =>
        by_cases hb : p b = true
        · simp [List.countP_cons, hb, hdisj b hb]; omega
        · by_cases hb2 : q b = true
          · simp [List.countP_cons, hb, hb2]; omega
          · simp [List.countP_cons, hb, hb2]; omega
    intro x hx
    by_cases ha : p a = true
    · have hqa := hdisj a ha
      simp [List.countP_cons, ha, hqa] at h
      rcases List.mem_cons.1 hx with rfl | hx
      · exact Or.inl ha
      · exact ih (by omega) x hx
    · by_cases ha2 : q a = true
      · simp [List.countP_cons, ha, ha2] at h
        rcases List.mem_cons.1 hx with rfl | hx
        · exact Or.inr ha2
        · exact ih (by omega) x hx
      · simp [List.countP_cons, ha, ha2] at h
        omega

theorem isEmptyFragment_of_object (lib : Codec) (part : String)
    (h : isObjectFragment lib part = true) : isEmptyFragment lib part = false := by
  unfold isObjectFragment fragmentObject at h
  unfold isEmptyFragment
  cases hm : yamlUnmarshal lib part jsonUnmarshalMap with
  | error e => rfl
  | ok m =>
    by_cases hl : m.length = 0
    · simp [hm, hl] at h
    · simp [hl]

theorem fragmentError_of_object (lib : Codec) (part : String)
    (h : isObjectFragment lib part = true) : fragmentError lib part = none := by
  unfold isObjectFragment fragmentObject at h
  unfold fragmentError
  cases hm : yamlUnmarshal lib part jsonUnmarshalMap with
  | error e => simp [hm] at h
  | ok m =>
    by_cases hl : m.length = 0
    · simp [hl]
    · cases ho : yamlUnmarshal lib part (Unstructured.UnmarshalJSON lib.jsonText) with
      | error e => simp [hm, hl, ho] at h
      | ok o => simp [hl]

theorem length_filterMap_fragmentObject (lib : Codec) (frags : List String) :
    (frags.filterMap (fragmentObject lib)).length = frags.countP (isObjectFragment lib) := by
  induction frags with
  | nil => rfl
  | cons f fs ih =>
    cases ho : fragmentObject lib f with
    | none => simp [List.filterMap_cons, List.countP_cons, isObjectFragment, ho, ih]
    | some o => simp [List.filterMap_cons, List.countP_cons, isObjectFragment, ho, ih]

/-- C3, amended: for a string built by joining one or more fragments with `\n---`, none
of them containing the separator, where `N` fragments parse to a non-empty mapping
that decodes as an object and the other `M` parse to a null or empty mapping,
`StringToUnstructuredArray` returns exactly `N` objects, those of the object
fragments in their order, and a nil error. -/
theorem joined_object_and_empty_fragments (lib : Codec) (frags : List String) (N M : Nat)
    (hne : frags ≠ [])
    (hsep : ∀ f ∈ frags, hasSeparator f.data = false)
    (hN : frags.countP (isObjectFragment lib) = N)
    (hM : frags.countP (isEmptyFragment lib) = M)
    (hall : frags.length = N + M) :
    StringToUnstructuredArray lib (joinFragments frags) =
        (frags.filterMap (fragmentObject lib), none) ∧
      (frags.filterMap (fragmentObject lib)).length = N := by
  have hcase : ∀ f ∈ frags, isObjectFragment lib f = true ∨ isEmptyFragment lib f = true :=
    forall_or_of_countP _ _ frags (isEmptyFragment_of_object lib) (by omega)
  have herr : frags.filterMap (fragmentError lib) = [] := by
    rw [List.filterMap_eq_nil_iff]
    intro f hf
    rcases hcase f hf with h | h
    · exact fragmentError_of_object lib f h
    · exact fragmentError_of_empty lib f h
  refine ⟨?_, ?_⟩
  · unfold StringToUnstructuredArray
    rw [processParts_eq, Split_joinFragments frags hne hsep, herr]
    rfl
  · rw [length_filterMap_fragmentObject, hN]

/-- Witness of C3 (amended) on the small codec: two object fragments around two empty
ones. -/
theorem joined_object_and_empty_fragments_witness :
    StringToUnstructuredArray miniCodec
        (joinFragments ["\x7b\"kind\":\"Pod\"\x7d", "", "\n", "\n\x7b\"kind\":\"Job\"\x7d"]) =
        (["\x7b\"kind\":\"Pod\"\x7d", "", "\n", "\n\x7b\"kind\":\"Job\"\x7d"].filterMap
          (fragmentObject miniCodec), none) ∧
      (["\x7b\"kind\":\"Pod\"\x7d", "", "\n", "\n\x7b\"kind\":\"Job\"\x7d"].filterMap
          (fragmentObject miniCodec)).length = 2 :=
  joined_object_and_empty_fragments miniCodec
    ["\x7b\"kind\":\"Pod\"\x7d", "", "\n", "\n\x7b\"kind\":\"Job\"\x7d"] 2 2
    (by decide) (by decide) (by decide) (by decide) (by decide)

/-- C3 as stated fails: on the small codec the one-fragment string `{"a":"b"}` is
non-empty valid YAML without a separator, yet it yields no object and a non-nil error
(the mapping has no kind); the one-fragment string `null` is non-empty valid YAML too
and yields no object at all. -/
theorem valid_yaml_fragment_without_object :
    (hasSeparator "\x7b\"a\":\"b\"\x7d".data = false ∧
      "\x7b\"a\":\"b\"\x7d" ≠ "" ∧
      isValidYAML miniCodec "\x7b\"a\":\"b\"\x7d" = true ∧
      (StringToUnstructuredArray miniCodec (joinFragments ["\x7b\"a\":\"b\"\x7d"])).1.length = 0 ∧
      (StringToUnstructuredArray miniCodec (joinFragments ["\x7b\"a\":\"b\"\x7d"])).2 =
        some "Failed to unmarshal manifest: error unmarshaling JSON: Object 'Kind' is missing in '\x7b\"a\":\"b\"\x7d'") ∧
    (hasSeparator "null".data = false ∧ "null" ≠ "" ∧
      isValidYAML miniCodec "null" = true ∧
      (StringToUnstructuredArray miniCodec (joinFragments ["null"])).1.length = 0 ∧
      (StringToUnstructuredArray miniCodec (joinFragments ["null"])).2 = none) := by
  decide

/-! ### One fragment -/

/-- C10: on an input without a `\n---` separator that parses to a non-empty mapping,
`StringToUnstructuredArray` returns the one-element list of `o` and a nil error
exactly when `StringToUnstructured` returns `o`, and an empty list with a non-nil
error exactly when `StringToUnstructured` returns an error. -/
theorem single_fragment_agrees (lib : Codec) (out : String)
    (hsep : hasSeparator out.data = false)
    (hmap : ∃ m, yamlUnmarshal lib out jsonUnmarshalMap = .ok m ∧ m.length ≠ 0) :
    (∀ o, (StringToUnstructuredArray lib out = ([o], none) ↔
        StringToUnstructured lib out = .ok o)) ∧
    ((∃ e, StringToUnstructuredArray lib out = ([], some e)) ↔
        ∃ e, StringToUnstructured lib out = .error e) := by
  obtain ⟨m, hm, hlen⟩ := hmap
  have hrun : StringToUnstructuredArray lib out = processPart lib ([], none) out := by
    simp [StringToUnstructuredArray, processParts, Split_of_no_separator out hsep]
  rw [hrun]
  unfold processPart StringToUnstructured
  rw [hm]
  cases ho : yamlUnmarshal lib out (Unstructured.UnmarshalJSON lib.jsonText) with
  | error e => simp [hlen]
  | ok o =>
    simp only [hlen, if_false, List.nil_append]
    constructor
    · intro o2
      constructor
      · intro h
        have h1 := congrArg Prod.fst h
        simp only [List.cons.injEq, and_true] at h1
        rw [h1]
      · intro h
        cases h
        rfl
    · constructor
      · rintro ⟨e, h⟩
        have h1 := congrArg Prod.fst h
        simp at h1
      · rintro ⟨e, h⟩
        cases h

/-- Witness of C10 on the small codec: a single Pod document. -/
theorem single_fragment_agrees_witness :
    (∀ o, (StringToUnstructuredArray miniCodec "\x7b\"kind\":\"Pod\"\x7d" = ([o], none) ↔
        StringToUnstructured miniCodec "\x7b\"kind\":\"Pod\"\x7d" = .ok o)) ∧
    ((∃ e, StringToUnstructuredArray miniCodec "\x7b\"kind\":\"Pod\"\x7d" = ([], some e)) ↔
        ∃ e, StringToUnstructured miniCodec "\x7b\"kind\":\"Pod\"\x7d" = .error e) :=
  single_fragment_agrees miniCodec "\x7b\"kind\":\"Pod\"\x7d" (by decide)
    ⟨[("kind", .str "Pod")], rfl, by decide⟩

/-! ### Typed objects -/

/-- C9: `UnstructuredToObject` is `BytesToObject` on the bytes of the object when
serializing it succeeds, and returns the serialization error, whatever the registry
and the kind, when it fails. -/
theorem UnstructuredToObject_eq_BytesToObject (lib : Codec) (src : Unstructured)
    (kind : GroupVersionKind) (scheme : Scheme) :
    UnstructuredToObject lib src kind scheme =
      match lib.yamlMarshal (.obj src.Object) with
      | .ok b => BytesToObject lib b kind scheme
      | .error e => .error e := by
  unfold UnstructuredToObject BytesToObject
  cases lib.yamlMarshal (.obj src.Object) <;> rfl

/-- C5, amended: `BytesToObject` returns the error of the registry and no object when the
kind is not registered, and otherwise what decoding the bytes into the newly
constructed object of that kind gives (the populated object, or the decode error and
no object); `UnstructuredToObject` does the same on the bytes of the generic object
whenever serializing that object succeeds. -/
theorem coerce_unknown_kind_or_decode (lib : Codec) (src : Unstructured) (b : String)
    (kind : GroupVersionKind) (scheme : Scheme)
    (hbytes : lib.yamlMarshal (.obj src.Object) = .ok b) :
    (∀ e, scheme.New kind = .error e →
      BytesToObject lib b kind scheme = .error e ∧
      UnstructuredToObject lib src kind scheme = .error e) ∧
    (∀ new, scheme.New kind = .ok new →
      BytesToObject lib b kind scheme = lib.yamlUnmarshalInto b new ∧
      UnstructuredToObject lib src kind scheme = lib.yamlUnmarshalInto b new) := by
  unfold UnstructuredToObject BytesToObject
  rw [hbytes]
  constructor
  · intro e he
    simp [he]
  · intro new hnew
    simp only [hnew]
    cases lib.yamlUnmarshalInto b new <;> simp

/-- Witness of C5 (amended) on the small codec: a Pod document, against a registry that
knows `v1/Pod`. -/
theorem coerce_unknown_kind_or_decode_witness :
    (∀ e, testScheme.New podKind = .error e →
      BytesToObject miniCodec "\x7b\"kind\":\"Pod\"\x7d" podKind testScheme = .error e ∧
      UnstructuredToObject miniCodec { Object := [("kind", .str "Pod")] } podKind testScheme =
        .error e) ∧
    (∀ new, testScheme.New podKind = .ok new →
      BytesToObject miniCodec "\x7b\"kind\":\"Pod\"\x7d" podKind testScheme =
        miniCodec.yamlUnmarshalInto "\x7b\"kind\":\"Pod\"\x7d" new ∧
      UnstructuredToObject miniCodec { Object := [("kind", .str "Pod")] } podKind testScheme =
        miniCodec.yamlUnmarshalInto "\x7b\"kind\":\"Pod\"\x7d" new) :=
  coerce_unknown_kind_or_decode miniCodec { Object := [("kind", .str "Pod")] }
    "\x7b\"kind\":\"Pod\"\x7d" podKind testScheme rfl

/-- C5 as stated fails: for a generic object that cannot be serialized and a kind the
registry does not know, `UnstructuredToObject` returns the serialization error, which
is not the not-registered error of the registry. -/
theorem unknown_kind_hidden_by_serialization_error :
    testScheme.New gadgetKind =
      .error "no kind \"Gadget\" is registered for version \"example.io/v1\" in scheme \"test\"" ∧
    UnstructuredToObject miniCodec unencodable gadgetKind testScheme =
      .error "error marshaling into JSON: json: unsupported value" ∧
    UnstructuredToObject miniCodec unencodable gadgetKind testScheme ≠
      .error "no kind \"Gadget\" is registered for version \"example.io/v1\" in scheme \"test\"" := by
  refine ⟨rfl, rfl, ?_⟩
  intro h
  have h2 : UnstructuredToObject miniCodec unencodable gadgetKind testScheme =
      .error "error marshaling into JSON: json: unsupported value" := rfl
  rw [h2] at h
  injection h with h3
  exact absurd h3 (by decide)

/-! ### Round trips -/

theorem length_eq_zero_iff_eq_empty (s : String) : s.length = 0 ↔ s = "" := by
  cases s with
  | mk l => cases l <;> simp [String.length, String.ext_iff]

theorem UnmarshalJSON_obj (text : Value → String) (m : Fields)
    (hkind : getNestedString m ["kind"] ≠ "")
    (hgv : parsesGroupVersion (getNestedString m ["apiVersion"]) = true) :
    Unstructured.UnmarshalJSON text (.obj m) = .ok { Object := m } := by
  have h : (getNestedString m ["kind"]).length ≠ 0 := fun h0 =>
    hkind ((length_eq_zero_iff_eq_empty _).1 h0)
  simp [Unstructured.UnmarshalJSON, jsonUnmarshalMap, groupVersionKindKind, hgv, h]

theorem UnmarshalJSON_obj_ok (text : Value → String) (m : Fields) (u : Unstructured)
    (h : Unstructured.UnmarshalJSON text (.obj m) = .ok u) : u = { Object := m } := by
  simp only [Unstructured.UnmarshalJSON, jsonUnmarshalMap] at h
  split at h
  · cases h
  · cases h; rfl

/-- C4, amended: for every object with a non-empty kind and an apiVersion with at most
one `/` that `RuntimeObjectToBytes` serializes without error, into a text that the
YAML reader reads back as the field tree of the object, `StringToUnstructured` on
that text succeeds and yields an object of the same apiVersion, kind, name and namespace. -/
theorem roundtrip_preserves_identity (lib : Codec) (obj : RuntimeObject) (b : String)
    (hser : RuntimeObjectToBytes lib obj = .ok b)
    (hread : ∀ t, lib.jsonMarshal (.obj obj.fields) = .ok t →
      lib.yamlToJSON t = .ok (.obj obj.fields))
    (hkind : obj.identity.Kind ≠ "")
    (hgv : parsesGroupVersion obj.identity.APIVersion = true) :
    ∃ u, StringToUnstructured lib b = .ok u ∧ u.identity = obj.identity := by
  have hb : lib.jsonMarshal (.obj obj.fields) = .ok b := by
    unfold RuntimeObjectToBytes at hser
    cases hm : lib.jsonMarshal (.obj obj.fields) with
    | error e => simp [hm] at hser
    | ok t => simp [hm] at hser; rw [hser]
  refine ⟨{ Object := obj.fields }, ?_, rfl⟩
  simp [StringToUnstructured, yamlUnmarshal, hread b hb,
    UnmarshalJSON_obj lib.jsonText obj.fields hkind hgv]

/-- Witness of C4 (amended) on the small codec: the Pod of the controller test. -/
theorem roundtrip_preserves_identity_witness :
    ∃ u, StringToUnstructured miniCodec
        "\x7b\"kind\":\"Pod\",\"apiVersion\":\"v1\",\"metadata\":\x7b\"name\":\"test\",\"creationTimestamp\":null\x7d,\"spec\":\x7b\"containers\":null\x7d,\"status\":\x7b\x7d\x7d" =
          .ok u ∧
      u.identity = { APIVersion := "v1", Kind := "Pod", Name := "test", Namespace := "" } :=
  roundtrip_preserves_identity miniCodec testPod _ rfl
    (fun t ht => by cases ht; rfl) (by decide) (by decide)

/-- C4 as stated fails, in three ways.  The Pod of the controller test without its type
set is serialized without error and read back as the same field tree, and
`StringToUnstructured` refuses it because it has no kind; so it does a Pod whose
apiVersion `a/b/c` does not parse, its `GroupVersionKind()` being empty; and a Pod
whose name holds the character U+007F is serialized without error into a text the
YAML reader refuses. -/
theorem roundtrip_fails_without_kind :
    (RuntimeObjectToBytes miniCodec untypedPod =
        .ok "\x7b\"metadata\":\x7b\"name\":\"test\",\"creationTimestamp\":null\x7d,\"spec\":\x7b\"containers\":null\x7d,\"status\":\x7b\x7d\x7d" ∧
      miniCodec.yamlToJSON "\x7b\"metadata\":\x7b\"name\":\"test\",\"creationTimestamp\":null\x7d,\"spec\":\x7b\"containers\":null\x7d,\"status\":\x7b\x7d\x7d" =
        .ok (.obj untypedPod.fields) ∧
      StringToUnstructured miniCodec
        "\x7b\"metadata\":\x7b\"name\":\"test\",\"creationTimestamp\":null\x7d,\"spec\":\x7b\"containers\":null\x7d,\"status\":\x7b\x7d\x7d" =
        .error "error unmarshaling JSON: Object 'Kind' is missing in '\x7b\"metadata\":\x7b\"creationTimestamp\":null,\"name\":\"test\"\x7d,\"spec\":\x7b\"containers\":null\x7d,\"status\":\x7b\x7d\x7d'") ∧
    (slashPod.identity.Kind = "Pod" ∧
      RuntimeObjectToBytes miniCodec slashPod =
        .ok "\x7b\"kind\":\"Pod\",\"apiVersion\":\"a/b/c\",\"metadata\":\x7b\"name\":\"test\",\"creationTimestamp\":null\x7d,\"spec\":\x7b\"containers\":null\x7d,\"status\":\x7b\x7d\x7d" ∧
      miniCodec.yamlToJSON "\x7b\"kind\":\"Pod\",\"apiVersion\":\"a/b/c\",\"metadata\":\x7b\"name\":\"test\",\"creationTimestamp\":null\x7d,\"spec\":\x7b\"containers\":null\x7d,\"status\":\x7b\x7d\x7d" =
        .ok (.obj slashPod.fields) ∧
      StringToUnstructured miniCodec
        "\x7b\"kind\":\"Pod\",\"apiVersion\":\"a/b/c\",\"metadata\":\x7b\"name\":\"test\",\"creationTimestamp\":null\x7d,\"spec\":\x7b\"containers\":null\x7d,\"status\":\x7b\x7d\x7d" =
        .error "error unmarshaling JSON: Object 'Kind' is missing in '\x7b\"apiVersion\":\"a/b/c\",\"kind\":\"Pod\",\"metadata\":\x7b\"creationTimestamp\":null,\"name\":\"test\"\x7d,\"spec\":\x7b\"containers\":null\x7d,\"status\":\x7b\x7d\x7d'") ∧
    (delPod.identity = { APIVersion := "v1", Kind := "Pod", Name := "a\x7fb", Namespace := "" } ∧
      RuntimeObjectToBytes miniCodec delPod =
        .ok "\x7b\"kind\":\"Pod\",\"apiVersion\":\"v1\",\"metadata\":\x7b\"name\":\"a\x7fb\",\"creationTimestamp\":null\x7d,\"spec\":\x7b\"containers\":null\x7d,\"status\":\x7b\x7d\x7d" ∧
      StringToUnstructured miniCodec
        "\x7b\"kind\":\"Pod\",\"apiVersion\":\"v1\",\"metadata\":\x7b\"name\":\"a\x7fb\",\"creationTimestamp\":null\x7d,\"spec\":\x7b\"containers\":null\x7d,\"status\":\x7b\x7d\x7d" =
        .error "error converting YAML to JSON: yaml: control characters are not allowed") :=
  ⟨⟨rfl, rfl, rfl⟩, ⟨rfl, rfl, rfl, rfl⟩, ⟨rfl, rfl, rfl⟩⟩

theorem jsonUnmarshalItems_objects_ok (text : Value → String) (objs : List RuntimeObject)
    (out : List (Option Unstructured))
    (h : jsonUnmarshalItems text (objs.map fun o => .obj o.fields) = .ok out) :
    out = objs.map (fun o => some { Object := o.fields }) := by
  induction objs generalizing out with
  | nil =>
    simp [jsonUnmarshalItems] at h
    simp [h]
  | cons o os ih =>
    simp only [List.map_cons, jsonUnmarshalItems] at h
    cases hu : Unstructured.UnmarshalJSON text (.obj o.fields) with
    | error e => simp [hu] at h
    | ok u =>
      cases hr : jsonUnmarshalItems text (os.map fun o => .obj o.fields) with
      | error e => simp [hu, hr] at h
      | ok us =>
        simp [hu, hr] at h
        rw [← h, UnmarshalJSON_obj_ok text o.fields u hu, ih us hr]
        rfl

theorem jsonUnmarshalItems_objects_of_kinds (text : Value → String)
    (objs : List RuntimeObject)
    (hk : ∀ o ∈ objs, o.identity.Kind ≠ "" ∧ parsesGroupVersion o.identity.APIVersion = true) :
    jsonUnmarshalItems text (objs.map fun o => .obj o.fields) =
      .ok (objs.map (fun o => some { Object := o.fields })) := by
  induction objs with
  | nil => rfl
  | cons o os ih =>
    have ho := hk o (by simp)
    simp only [List.map_cons, jsonUnmarshalItems,
      UnmarshalJSON_obj text o.fields ho.1 ho.2,
      ih (fun x hx => hk x (List.mem_cons_of_mem _ hx))]

/-- C6, amended: `ObjectToObject` from a sequence of typed objects into a list of generic
objects returns the error of the serialization when that fails and the error of the
deserialization when that fails; when the YAML text written for the sequence reads
back as the sequence, every successful output has the length and order of the input
and carries at each position the apiVersion, kind, name and namespace of the input
item there, and the call does succeed when every item has a kind and an apiVersion
with at most one `/`. -/
theorem ObjectToObject_typed_to_generic (lib : Codec) (objs : List RuntimeObject) :
    (∀ e, lib.yamlMarshal (objectsValue objs) = .error e →
      ObjectToObject lib (objectsValue objs) (jsonUnmarshalUnstructuredList lib.jsonText) =
        .error e) ∧
    (∀ b e, lib.yamlMarshal (objectsValue objs) = .ok b →
      yamlUnmarshal lib b (jsonUnmarshalUnstructuredList lib.jsonText) = .error e →
      ObjectToObject lib (objectsValue objs) (jsonUnmarshalUnstructuredList lib.jsonText) =
        .error e) ∧
    (∀ b, lib.yamlMarshal (objectsValue objs) = .ok b →
      lib.yamlToJSON b = .ok (objectsValue objs) →
      (∀ out,
        ObjectToObject lib (objectsValue objs) (jsonUnmarshalUnstructuredList lib.jsonText) =
          .ok out →
        out.length = objs.length ∧
        out.map (Option.map Unstructured.identity) = objs.map (fun o => some o.identity)) ∧
      ((∀ o ∈ objs, o.identity.Kind ≠ "" ∧ parsesGroupVersion o.identity.APIVersion = true) →
        ∃ out,
          ObjectToObject lib (objectsValue objs) (jsonUnmarshalUnstructuredList lib.jsonText) =
            .ok out)) := by
  refine ⟨?_, ?_, ?_⟩
  · intro e he
    simp [ObjectToObject, he]
  · intro b e hb he
    simp [ObjectToObject, hb, he]
  · intro b hb hread
    have hrun :
        ObjectToObject lib (objectsValue objs) (jsonUnmarshalUnstructuredList lib.jsonText) =
        match jsonUnmarshalItems lib.jsonText (objs.map fun o => .obj o.fields) with
        | .error e => .error ("error unmarshaling JSON: " ++ e)
        | .ok o => .ok o := by
      unfold ObjectToObject
      rw [hb]
      simp only [yamlUnmarshal, hread]
      simp only [objectsValue, jsonUnmarshalUnstructuredList]
      cases jsonUnmarshalItems lib.jsonText (objs.map fun o => .obj o.fields) <;> rfl
    rw [hrun]
    constructor
    · intro out hout
      cases hr : jsonUnmarshalItems lib.jsonText (objs.map fun o => .obj o.fields) with
      | error e => simp [hr] at hout
      | ok us =>
        simp [hr] at hout
        subst hout
        rw [jsonUnmarshalItems_objects_ok lib.jsonText objs us hr]
        simp [Unstructured.identity, RuntimeObject.identity, Fields.identity,
          Unstructured.GetAPIVersion, Unstructured.GetKind, Unstructured.GetName,
          Unstructured.GetNamespace]
    · intro hk
      rw [jsonUnmarshalItems_objects_of_kinds lib.jsonText objs hk]
      exact ⟨_, rfl⟩

/-- Witness of C6 (amended) on the small codec: the output of the fake Helm runner of the
controller test, one Pod named `test`. -/
theorem ObjectToObject_typed_to_generic_witness :
    ∃ out, ObjectToObject miniCodec (objectsValue [testPod])
        (jsonUnmarshalUnstructuredList miniCodec.jsonText) = .ok out ∧
      out.length = 1 ∧
      out.map (Option.map Unstructured.identity) =
        [some { APIVersion := "v1", Kind := "Pod", Name := "test", Namespace := "" }] := by
  obtain ⟨out, hout⟩ :=
    ((ObjectToObject_typed_to_generic miniCodec [testPod]).2.2 _ rfl rfl).2 (by decide)
  exact ⟨out, hout,
    ((ObjectToObject_typed_to_generic miniCodec [testPod]).2.2 _ rfl rfl).1 out hout⟩

/-- C6 as stated fails: for the one Pod whose name is `a`, U+0085, `b`, the call succeeds
and its one output item is named `a b`: the line break U+0085, written as it is by
`encoding/json`, is folded into a space by the YAML reader. -/
theorem ObjectToObject_changes_name :
    nelPod.identity =
      { APIVersion := "v1", Kind := "Pod", Name := "a\u0085b", Namespace := "" } ∧
    (ObjectToObject miniCodec (objectsValue [nelPod])
        (jsonUnmarshalUnstructuredList miniCodec.jsonText)).toOption.map
          (fun out => out.map (Option.map Unstructured.identity)) =
      some [some { APIVersion := "v1", Kind := "Pod", Name := "a b", Namespace := "" }] := by
  decide

/-! ### The reconcile pass -/

theorem Failure.message_ne_empty (f : Failure) : f.message ≠ "" := by
  intro h
  have hl := congrArg String.length h
  cases f <;> simp [Failure.message, String.length_append] at hl <;>
    exact absurd hl.1 (by decide)

theorem outage_of_getInstance (c : Cluster) (ns name : String) (x : Option Instance)
    (h : c.getInstance ns name = .ok x) : c.Outage = none := by
  unfold Cluster.getInstance at h
  cases ho : c.Outage with
  | none => rfl
  | some e => simp [ho] at h

theorem find_map_update (p : Instance → Bool) (f : Instance → Instance)
    (hp : ∀ i, p (f i) = p i) (l : List Instance) :
    (l.map (fun i => if p i = true then f i else i)).find? p = (l.find? p).map f := by
  induction l with
  | nil => rfl
  | cons i is ih =>
    cases h : p i with
    | true =>
      have h2 : p (f i) = true := by rw [hp, h]
      simp only [List.map_cons, h, if_true, List.find?_cons, h2, Option.map_some']
    | false =>
      simp only [List.map_cons, h, List.find?_cons, Bool.false_eq_true, if_false]
      exact ih

theorem getInstance_setInstanceStatus (c : Cluster) (ns name : String) (st : InstanceStatus)
    (inst : Instance) (h : c.getInstance ns name = .ok (some inst)) :
    (c.setInstanceStatus ns name st).getInstance ns name =
      .ok (some { inst with Status := st }) := by
  have ho := outage_of_getInstance c ns name _ h
  unfold Cluster.getInstance at h ⊢
  simp only [Cluster.setInstanceStatus, ho] at h ⊢
  have hf := find_map_update (fun i => i.Namespace == ns && i.Name == name)
    (fun i => { i with Status := st }) (fun _ => rfl) c.Instances
  simp only [Except.ok.injEq] at h
  rw [hf, h]
  rfl

theorem persist_reachable (c : Cluster) (ns name : String) (st : InstanceStatus)
    (h : c.Outage = none) : persist c ns name st = (none, c.setInstanceStatus ns name st) := by
  simp [persist, h]

theorem upsert_instances (c : Cluster) (o : NormalizedObject) :
    (c.upsert o).Instances = c.Instances ∧ (c.upsert o).Templates = c.Templates ∧
      (c.upsert o).Outage = c.Outage := by
  unfold Cluster.upsert
  split <;> exact ⟨rfl, rfl, rfl⟩

theorem upsert_mem_self (c : Cluster) (o : NormalizedObject) :
    ∃ s ∈ (c.upsert o).Objects, s.id = o.id := by
  unfold Cluster.upsert
  split
  · rename_i h
    obtain ⟨x, hx, hxid⟩ := List.any_eq_true.1 h
    refine ⟨o, ?_, rfl⟩
    simp only [List.mem_map]
    exact ⟨x, hx, by simp [hxid]⟩
  · exact ⟨o, by simp, rfl⟩

theorem upsert_preserves (c : Cluster) (o : NormalizedObject) (r : Identity)
    (h : ∃ s ∈ c.Objects, s.id = r) : ∃ s ∈ (c.upsert o).Objects, s.id = r := by
  obtain ⟨s, hs, hsr⟩ := h
  unfold Cluster.upsert
  split
  · by_cases hso : (s.id == o.id) = true
    · refine ⟨o, ?_, ?_⟩
      · simp only [List.mem_map]
        exact ⟨s, hs, by simp [hso]⟩
      · rw [← hsr]
        exact (beq_iff_eq.1 hso).symm
    · refine ⟨s, ?_, hsr⟩
      simp only [List.mem_map]
      exact ⟨s, hs, by simp [hso]⟩
  · exact ⟨s, by simp [hs], hsr⟩

theorem applyAll_accepted (env : Collaborators) (ns : String) (objs : List NormalizedObject)
    (hacc : ∀ o ∈ objs, env.refuse (stamp env ns o) = none)
    (c : Cluster) (refs : List Identity) :
    ∃ c2, applyAll env ns c refs objs =
        (c2, refs ++ objs.map (fun o => (stamp env ns o).id), none) ∧
      c2.Instances = c.Instances ∧ c2.Templates = c.Templates ∧ c2.Outage = c.Outage ∧
      (∀ r, (∃ s ∈ c.Objects, s.id = r) → ∃ s ∈ c2.Objects, s.id = r) ∧
      (∀ o ∈ objs, ∃ s ∈ c2.Objects, s.id = (stamp env ns o).id) := by
  induction objs generalizing c refs with
  | nil => exact ⟨c, by simp [applyAll], rfl, rfl, rfl, fun r h => h, by simp⟩
  | cons o os ih =>
    have ho := hacc o (by simp)
    obtain ⟨c2, hrun, hi, ht, hout, hkeep, hnew⟩ :=
      ih (fun x hx => hacc x (List.mem_cons_of_mem _ hx)) (c.upsert (stamp env ns o))
        (refs ++ [(stamp env ns o).id])
    refine ⟨c2, ?_, ?_, ?_, ?_, ?_, ?_⟩
    · simp [applyAll, Apply, ho, hrun]
    · rw [hi, (upsert_instances c _).1]
    · rw [ht, (upsert_instances c _).2.1]
    · rw [hout, (upsert_instances c _).2.2]
    · intro r h
      exact hkeep r (upsert_preserves c _ r h)
    · intro x hx
      rcases List.mem_cons.1 hx with rfl | hx
      · exact hkeep _ (upsert_mem_self c _)
      · exact hnew x hx

theorem renderManifests_of_parsed (lib : Codec) (ms : List String) (us : List Unstructured)
    (h : List.Forall₂ (fun m u => StringToUnstructured lib m = .ok u) ms us) :
    renderManifests lib ms = .ok (us.map NormalizedObject.ofUnstructured) := by
  induction h with
  | nil => rfl
  | cons hm _ ih => simp [renderManifests, hm, ih]

/-- C7: for an Instance whose Template has a Helm configuration (and no manifest list),
if the engine returns an error then one Reconcile pass returns no error to its
caller, leaves the Instance with Status.Status = Failed, a non-empty Status.reason
and Status.objects as before the pass, and applies no object: the objects and the
Templates of the cluster are as they were. -/
theorem reconcile_engine_error (env : Collaborators) (c : Cluster) (ns name : String)
    (inst : Instance) (tpl : Template) (cfg : HelmConfiguration) (e : String)
    (hinst : c.getInstance ns name = .ok (some inst))
    (htpl : c.getTemplate inst.Template = .ok (some tpl))
    (hman : tpl.Resources.Manifests = none)
    (hhelm : tpl.Resources.Helm = some cfg)
    (herr : env.engine c cfg.ReleaseName inst.Namespace cfg = .error e) :
    (Reconcile env c ns name).1 = none ∧
    (∃ i, (Reconcile env c ns name).2.getInstance ns name = .ok (some i) ∧
      i.Status.Status = .Failed ∧
      i.Status.Reason ≠ "" ∧
      i.Status.Objects = inst.Status.Objects) ∧
    (Reconcile env c ns name).2.Objects = c.Objects ∧
    (Reconcile env c ns name).2.Templates = c.Templates := by
  have hrender : Render env c tpl inst = .error (.RenderError e) := by
    simp [Render, hman, hhelm, herr]
  have ho := outage_of_getInstance c ns name _ hinst
  have hrun : Reconcile env c ns name =
      (none, c.setInstanceStatus ns name
        { Status := .Failed, Reason := (Failure.RenderError e).message,
          Objects := inst.Status.Objects }) := by
    simp only [Reconcile, hinst, htpl, hrender]
    exact persist_reachable c ns name _ ho
  rw [hrun]
  refine ⟨rfl, ⟨_, getInstance_setInstanceStatus c ns name _ inst hinst, rfl, ?_, rfl⟩,
    rfl, rfl⟩
  exact Failure.message_ne_empty (.RenderError e)

/-- Witness of C7: the case "Failed" of the controller test, a fake Helm runner that
answers `TestError`. -/
theorem reconcile_engine_error_witness :
    (Reconcile (testCollaborators { out := [], err := some "TestError" })
        (testCluster helmTemplate) "test" "test").1 = none ∧
    (∃ i, (Reconcile (testCollaborators { out := [], err := some "TestError" })
          (testCluster helmTemplate) "test" "test").2.getInstance "test" "test" =
          .ok (some i) ∧
      i.Status.Status = .Failed ∧ i.Status.Reason ≠ "" ∧ i.Status.Objects = []) ∧
    (Reconcile (testCollaborators { out := [], err := some "TestError" })
        (testCluster helmTemplate) "test" "test").2.Objects.length = 0 :=
  have h := reconcile_engine_error (testCollaborators { out := [], err := some "TestError" })
    (testCluster helmTemplate) "test" "test" testInstance helmTemplate
    { ReleaseName := "", Chart := "", Values := "" } "TestError" rfl rfl rfl rfl rfl
  ⟨h.1, h.2.1, by rw [h.2.2.1]; rfl⟩

/-- The pass returns an error of its own only for a transport failure: when the store
cannot be reached, the error of the store is handed to the caller and nothing is
written. -/
theorem reconcile_store_outage (env : Collaborators) (c : Cluster) (ns name e : String)
    (h : c.Outage = some e) : Reconcile env c ns name = (some e, c) := by
  simp [Reconcile, Cluster.getInstance, h]

/-- C8, amended: for a static-manifest Template whose manifests all parse and whose
objects the store accepts, one Reconcile pass of an Instance referring to it returns
no error and ends with Status.Status = Deployed and Status.objects holding exactly
one entry per manifest, in manifest order, each with the apiVersion, kind and name of
that manifest and with its namespace, or, when the manifest sets no namespace and its
kind is namespace-scoped, with the namespace of the Instance; each entry then names an
object in the cluster store. -/
theorem reconcile_static_manifests (env : Collaborators) (c : Cluster) (ns name : String)
    (inst : Instance) (tpl : Template) (ms : List String) (us : List Unstructured)
    (hinst : c.getInstance ns name = .ok (some inst))
    (htpl : c.getTemplate inst.Template = .ok (some tpl))
    (hman : tpl.Resources.Manifests = some ms)
    (hhelm : tpl.Resources.Helm = none)
    (hparse : List.Forall₂ (fun m u => StringToUnstructured env.lib m = .ok u) ms us)
    (happly : ∀ u ∈ us,
      env.refuse (stamp env inst.Namespace (NormalizedObject.ofUnstructured u)) = none) :
    (Reconcile env c ns name).1 = none ∧
    ∃ i, (Reconcile env c ns name).2.getInstance ns name = .ok (some i) ∧
      i.Status.Status = .Deployed ∧
      i.Status.Objects.length = ms.length ∧
      i.Status.Objects = us.map (fun u =>
        { APIVersion := u.GetAPIVersion, Kind := u.GetKind, Name := u.GetName
          Namespace :=
            if env.namespaced u.GetAPIVersion u.GetKind && u.GetNamespace == "" then
              inst.Namespace
            else u.GetNamespace }) ∧
      ∀ r ∈ i.Status.Objects, ∃ s ∈ (Reconcile env c ns name).2.Objects, s.id = r := by
  have hrender : Render env c tpl inst = .ok (us.map NormalizedObject.ofUnstructured) := by
    simp [Render, hman, hhelm, renderManifests_of_parsed env.lib ms us hparse]
  have ho := outage_of_getInstance c ns name _ hinst
  obtain ⟨c2, hrun2, hi2, _, ho2, _, hnew⟩ :=
    applyAll_accepted env inst.Namespace (us.map NormalizedObject.ofUnstructured)
      (by
        intro o ho
        obtain ⟨u, hu, rfl⟩ := List.mem_map.1 ho
        exact happly u hu) c []
  have hrun : Reconcile env c ns name =
      (none, c2.setInstanceStatus ns name
        { Status := .Deployed, Reason := ""
          Objects := (us.map NormalizedObject.ofUnstructured).map
            (fun o => (stamp env inst.Namespace o).id) }) := by
    simp only [Reconcile, hinst, htpl, hrender, hrun2, List.nil_append]
    exact persist_reachable c2 ns name _ (by rw [ho2, ho])
  have hget : c2.getInstance ns name = .ok (some inst) := by
    unfold Cluster.getInstance at hinst ⊢
    rw [hi2, ho2]
    exact hinst
  have hids : (us.map NormalizedObject.ofUnstructured).map
        (fun o => (stamp env inst.Namespace o).id) =
      us.map (fun u =>
        { APIVersion := u.GetAPIVersion, Kind := u.GetKind, Name := u.GetName
          Namespace :=
            if env.namespaced u.GetAPIVersion u.GetKind && u.GetNamespace == "" then
              inst.Namespace
            else u.GetNamespace }) := by
    rw [List.map_map]
    apply List.map_congr_left
    intro u _
    simp only [Function.comp, stamp, NormalizedObject.ofUnstructured, Unstructured.identity]
    split <;> rfl
  rw [hrun]
  refine ⟨rfl,
    { inst with
      Status :=
        { Status := .Deployed, Reason := ""
          Objects := (us.map NormalizedObject.ofUnstructured).map
            (fun o => (stamp env inst.Namespace o).id) } },
    getInstance_setInstanceStatus c2 ns name _ inst hget, rfl, ?_, hids, ?_⟩
  · simp [List.Forall₂.length_eq hparse]
  · intro r hr
    simp only [List.mem_map] at hr
    obtain ⟨o, ⟨u, hu, rfl⟩, rfl⟩ := hr
    exact hnew _ (List.mem_map.2 ⟨u, hu, rfl⟩)

/-- Witness of C8 (amended): the case "Simple pod" of the controller test; afterwards the
Instance is Deployed and the Pod `test` is in namespace `test`. -/
theorem reconcile_static_manifests_witness :
    (Reconcile (testCollaborators { out := [], err := none })
        (testCluster (staticTemplate [podManifest])) "test" "test").1 = none ∧
    ∃ i, (Reconcile (testCollaborators { out := [], err := none })
          (testCluster (staticTemplate [podManifest])) "test" "test").2.getInstance
            "test" "test" = .ok (some i) ∧
      i.Status.Status = .Deployed ∧
      i.Status.Objects.length = 1 ∧
      i.Status.Objects =
        [{ APIVersion := "v1", Kind := "Pod", Name := "test", Namespace := "test" }] ∧
      ∀ r ∈ i.Status.Objects,
        ∃ s ∈ (Reconcile (testCollaborators { out := [], err := none })
          (testCluster (staticTemplate [podManifest])) "test" "test").2.Objects, s.id = r :=
  reconcile_static_manifests (testCollaborators { out := [], err := none })
    (testCluster (staticTemplate [podManifest])) "test" "test" testInstance
    (staticTemplate [podManifest]) [podManifest] [{ Object := testPod.fields }]
    rfl rfl rfl rfl (List.Forall₂.cons rfl List.Forall₂.nil) (fun _ _ => rfl)

/-- C8 as stated fails: a manifest of the cluster-scoped kind Namespace that sets no namespace
parses and is applied, the pass ends Deployed, and its entry in Status.objects carries
no namespace, not the namespace `test` of the Instance. -/
theorem reconcile_cluster_scoped_manifest :
    (StringToUnstructured miniCodec namespaceManifest).toOption.map (fun u => u.identity) =
      some { APIVersion := "v1", Kind := "Namespace", Name := "team", Namespace := "" } ∧
    testInstance.Namespace = "test" ∧
    ((Reconcile (testCollaborators { out := [], err := none })
        (testCluster (staticTemplate [namespaceManifest]))
        "test" "test").2.getInstance "test" "test").toOption.join.map (fun i => i.Status) =
      some { Status := .Deployed, Reason := ""
             Objects := [{ APIVersion := "v1", Kind := "Namespace", Name := "team",
                           Namespace := "" }] } := by
  decide

/-- The case "Simple helm" of the controller test: the fake runner answers with the Pod
`test`, and the pass ends Deployed with that Pod recorded in namespace `test`. -/
theorem reconcile_simple_helm_scenario :
    ((Reconcile (testCollaborators { out := [testPod], err := none })
        (testCluster helmTemplate)
        "test" "test").2.getInstance "test" "test").toOption.join.map (fun i => i.Status) =
      some { Status := .Deployed, Reason := ""
             Objects := [{ APIVersion := "v1", Kind := "Pod", Name := "test",
                           Namespace := "test" }] } := by
  decide

end Kiosk
